import Mathlib

/-!
Verification of `sessionstore-parse.py`, a scanner that recovers
`\x7b"url": ...\x7d` records from a Firefox `sessionstore.js` blob.

The Python source is shallowly embedded below.  Blobs are `List Char`;
Python integers are `Int`/`Nat`; fallible Python code (uncaught exceptions)
is modelled with `Except PyErr`.  Loops that walk offsets are modelled with
an explicit fuel argument that is always sufficient for the initial call
(each iteration strictly decreases the walked offset).
-/

namespace SessionStore

/-- Python exceptions that the script can raise (uncaught). -/
inductive PyErr where
  | indexError
  | valueError
  | csvError
  | typeError
  | unboundLocal
deriving DecidableEq, Repr

deriving instance DecidableEq for Except

/-- The recognized field set, `FIELDS` in the source (line 18). -/
def FIELDS : List String :=
  ["lastUpdated", "url", "title", "ID", "referrer", "scroll", "subframe", "Path"]

/-! ## Forward depth scan (source lines 233-245)

```
treeLevel = 0
for currPos in range(start+1, end):
    if treeLevel < 0:
        break
    if jsonBlob[currPos] == '\x7b':
        treeLevel += 1
    if jsonBlob[currPos] == '\x7d':
        treeLevel -= 1
end = currPos
```

The two `if`s act on distinct characters, so each character contributes
`delta` to `treeLevel`.  The loop either breaks with `currPos` equal to the
first position at whose top `treeLevel < 0`, or exhausts the range with
`currPos = end - 1`.  The fuel of `scanLoop` is exactly `bound - pos`, so
running out of fuel is exactly the Python loop exhausting its range.
(The range is never empty in the program: `bound` is the next marker
occurrence or the blob length, both at least `start + 7`.) -/

/-- Contribution of one character to `treeLevel`. -/
def delta (c : Char) : Int :=
  if c = '\x7b' then 1 else if c = '\x7d' then -1 else 0

/-- The Python `for currPos in range(pos, bound)` loop of lines 235-243,
with `fuel = bound - pos` maintained as an invariant; returns the final
value of `currPos` (assigned to `end` on line 245). -/
def scanLoop (s : List Char) (bound : Nat) : Nat → Nat → Int → Nat
  | 0, _, _ => bound - 1
  | fuel + 1, pos, lvl =>
    if lvl < 0 then pos
    else scanLoop s bound fuel (pos + 1) (lvl + delta (s.getD pos ' '))

/-- The end offset computed for a record starting at `start`, searched up to
`bound` (source lines 234-245). -/
def scanEnd (s : List Char) (start bound : Nat) : Nat :=
  scanLoop s bound (bound - (start + 1)) (start + 1) 0

/-- Sum of `delta` over the `n` characters starting at offset `a`. -/
def sumDelta (s : List Char) (a : Nat) : Nat → Int
  | 0 => 0
  | n + 1 => sumDelta s a n + delta (s.getD (a + n) ' ')


/-! ## Record discovery (source line 192)

`re.finditer("\x5c\x7b\x5c"url\x5c"\x5c:", jsonBlob)` finds every
occurrence of the 7-character literal marker; occurrences cannot overlap, so
`finditer` returns exactly the set of offsets where the literal occurs. -/

/-- The literal record marker. -/
def marker : List Char := ['\x7b', '\"', 'u', 'r', 'l', '\"', ':']

/-- Does the marker occur at offset `i`? -/
def markerAt (s : List Char) (i : Nat) : Bool :=
  decide ((s.drop i).take 7 = marker)

/-- The list `entryOffsets` (source lines 192-194), ascending. -/
def entryOffsets (s : List Char) : List Nat :=
  (List.range s.length).filter (fun i => markerAt s i)

/-! ## Document timestamp (source lines 196-206)

`re.finditer("\x22lastUpdate\x22:[0-9]*\x7d", jsonBlob)`: the 13-character
literal, then a maximal digit run, then a closing brace.  For each match the
digit run is converted with `int(...)` (a `ValueError` on an empty run) and
the loop keeps overwriting `strLastUpdated`, so the last match wins.  If the
loop never runs, `strLastUpdated` stays unbound and its later use on line
273 raises `UnboundLocalError`.  The wall-clock formatting
`intUnixMSToDateTime` is a pure presentation of the parsed integer, so the
model carries the integer itself. -/

/-- The timestamp literal `"lastUpdate":`. -/
def tsLit : List Char :=
  ['\"', 'l', 'a', 's', 't', 'U', 'p', 'd', 'a', 't', 'e', '\"', ':']

/-- Maximal digit run starting at offset `i`. -/
def digitsFrom (s : List Char) (i : Nat) : List Char :=
  (s.drop i).takeWhile (fun c => c.isDigit)

/-- Does the timestamp regex match at offset `i`? -/
def tsMatchAt (s : List Char) (i : Nat) : Bool :=
  decide ((s.drop i).take 13 = tsLit) &&
    decide (s.getD (i + 13 + (digitsFrom s (i + 13)).length) ' ' = '\x7d')

/-- Offsets of all timestamp matches, ascending (matches cannot overlap). -/
def tsOffsets (s : List Char) : List Nat :=
  (List.range s.length).filter (fun i => tsMatchAt s i)

/-- Python `int(...)` on a digit string. -/
def digitsToNat (ds : List Char) : Nat :=
  ds.foldl (fun a c => a * 10 + (c.toNat - 48)) 0

/-- Value of the timestamp match at offset `i`; `int('')` raises
`ValueError` when the digit run is empty. -/
def tsValueAt (s : List Char) (i : Nat) : Except PyErr Int :=
  match digitsFrom s (i + 13) with
  | [] => .error .valueError
  | ds => .ok (digitsToNat ds)

/-- The `for result in re.finditer(...)` loop of lines 198-206: the running
value of `strLastUpdated` (`none` = still unbound). -/
def tsLoop (s : List Char) : List Nat → Option Int → Except PyErr (Option Int)
  | [], acc => .ok acc
  | i :: rest, _ =>
    match tsValueAt s i with
    | .error e => .error e
    | .ok v => tsLoop s rest (some v)

/-- The whole timestamp pre-scan (lines 197-206). -/
def scanLastUpdate (s : List Char) : Except PyErr (Option Int) :=
  tsLoop s (tsOffsets s) none

/-! ## Python `csv.reader` (used by `parseJsonEntry`, source lines 147-170)

CPython's `_csv.c` state machine with the dialects the script uses:
`quotechar` `\x22`, `doublequote=True`, `strict=False`, no `escapechar`, no
`skipinitialspace`, and `delimiter` `,` (first pass) or `:` (second pass).
Input is a list of lines (the script passes Python lists of strings); a line
boundary inside a quoted field continues the field on the next line with no
separator character inserted (verified against CPython), and end of input
inside a quoted field saves the pending field (non-strict). -/

/-- Parser modes of CPython's `_csv.c`. -/
inductive CsvMode where
  | startRecord
  | startField
  | inField
  | inQuoted
  | quoteInQuoted
  | eatCrnl
deriving DecidableEq, Repr

/-- Parser state: current mode, pending field, fields of the current row. -/
structure CsvState where
  mode : CsvMode
  field : List Char
  row : List String
deriving DecidableEq, Repr

/-- Append the pending field to the current row. -/
def saveField (st : CsvState) : CsvState :=
  { st with field := [], row := st.row ++ [String.mk st.field] }

/-- Append a character to the pending field and switch to mode `m`. -/
def addChar (st : CsvState) (c : Char) (m : CsvMode) : CsvState :=
  { st with mode := m, field := st.field ++ [c] }

/-- Is `c` a newline character for the csv machine? -/
def isNl (c : Char) : Bool := c = '\n' || c = '\r'

/-- Transition of `START_FIELD` (also target of `START_RECORD` fallthrough). -/
def startFieldStep (d : Char) (st : CsvState) (c : Char) : CsvState :=
  if isNl c then { saveField st with mode := .eatCrnl }
  else if c = '\"' then { st with mode := .inQuoted }
  else if c = d then { saveField st with mode := .startField }
  else addChar st c .inField

/-- One character of CPython's `parse_process_char` (non-strict,
doublequote, no escape char). -/
def processChar (d : Char) (st : CsvState) (c : Char) : Except PyErr CsvState :=
  match st.mode with
  | .startRecord =>
    if isNl c then .ok { st with mode := .eatCrnl }
    else .ok (startFieldStep d st c)
  | .startField => .ok (startFieldStep d st c)
  | .inField =>
    if isNl c then .ok { saveField st with mode := .eatCrnl }
    else if c = d then .ok { saveField st with mode := .startField }
    else .ok (addChar st c .inField)
  | .inQuoted =>
    if c = '\"' then .ok { st with mode := .quoteInQuoted }
    else .ok (addChar st c .inQuoted)
  | .quoteInQuoted =>
    if c = '\"' then .ok (addChar st '\"' .inQuoted)
    else if c = d then .ok { saveField st with mode := .startField }
    else if isNl c then .ok { saveField st with mode := .eatCrnl }
    else .ok (addChar st c .inField)
  | .eatCrnl =>
    if isNl c then .ok st
    else .error .csvError

/-- End-of-line step (CPython feeds a NUL sentinel): either the record is
complete (`some row`, state reset) or a quoted field continues on the next
line (`none`, state kept, nothing appended). -/
def processEol (st : CsvState) : Option (List String) × CsvState :=
  match st.mode with
  | .inQuoted => (none, st)
  | .startRecord => (some st.row, ⟨.startRecord, [], []⟩)
  | .eatCrnl => (some st.row, ⟨.startRecord, [], []⟩)
  | _ => (some (saveField st).row, ⟨.startRecord, [], []⟩)

/-- Read all rows from `lines`.  At end of input a pending quoted field is
saved and its row emitted (non-strict CPython behaviour). -/
def csvReadAux (d : Char) : List String → CsvState → List (List String) →
    Except PyErr (List (List String))
  | [], st, acc =>
    if st.mode = .inQuoted then .ok (acc ++ [(saveField st).row])
    else .ok acc
  | line :: rest, st, acc => do
    let st' ← line.data.foldlM (processChar d) st
    match processEol st' with
    | (some row, st'') => csvReadAux d rest st'' (acc ++ [row])
    | (none, st'') => csvReadAux d rest st'' acc

/-- `csv.reader(lines, delimiter=d)`, fully consumed. -/
def csvRead (d : Char) (lines : List String) : Except PyErr (List (List String)) :=
  csvReadAux d lines ⟨.startRecord, [], []⟩ []

/-! ## Field values and dictionaries -/

/-- A value stored in the record dictionary: parsed fields are strings, the
attached timestamp is the integer parsed on line 204 (its wall-clock
rendering is a pure function of that integer). -/
inductive Val where
  | vStr (s : String)
  | vInt (n : Int)
deriving DecidableEq, Repr

/-- A Python dict with string keys, as an insertion-ordered association
list with unique keys. -/
abbrev Dict := List (String × Val)

/-- Python `d[k] = v`: replace in place if present, else append. -/
def upsert : Dict → String → Val → Dict
  | [], k, v => [(k, v)]
  | (k', v') :: rest, k, v =>
    if k' = k then (k, v) :: rest else (k', v') :: upsert rest k v

/-- Python `dict.get`-style lookup. -/
def dlookup (k : String) : Dict → Option Val
  | [] => none
  | (k', v) :: rest => if k' = k then some v else dlookup k rest

/-! ## The tokenizer `parseJsonEntry` (source lines 147-170) -/

/-- The character set of `.strip('\x5c\x7b\x5c[\x5c\x22')` on lines 159-160:
the unrecognized escapes survive, so the set is backslash, open brace, open
bracket, double quote. -/
def STRIP1 : List Char := ['\\', '\x7b', '[', '\"']

/-- The character set of `.strip("\x5c\x7b\x5c\x7d\x5c[\x5c]")` on line 250:
backslash and both bracket pairs. -/
def STRIP2 : List Char := ['\\', '\x7b', '\x7d', '[', ']']

/-- Python `str.strip(chars)`. -/
def pyStrip (cs : List Char) (set : List Char) : List Char :=
  ((cs.dropWhile (· ∈ set)).reverse.dropWhile (· ∈ set)).reverse

/-- One iteration of the `for field in fields` loop (lines 158-167):
`field[0]`/`field[1]` raise `IndexError` when missing; both parts are
stripped; recognized keys are inserted, others discarded. -/
def fieldStep (d : Dict) (row : List String) : Except PyErr Dict :=
  match row.get? 0, row.get? 1 with
  | some f0, some f1 =>
    if String.mk (pyStrip f0.data STRIP1) ∈ FIELDS then
      .ok (upsert d (String.mk (pyStrip f0.data STRIP1))
        (Val.vStr (String.mk (pyStrip f1.data STRIP1))))
    else .ok d
  | _, _ => .error .indexError

/-- `parseJsonEntry` (lines 147-170): split the entry as one comma-separated
csv line, re-split each token as colon-separated csv lines, build the dict.
`ok none` is Python's implicit `return None` when the outer reader yields no
row (unreachable for the single-line input the script passes). -/
def parseJsonEntry (jsonEntry : String) : Except PyErr (Option Dict) :=
  match csvRead ',' [jsonEntry] with
  | .error e => .error e
  | .ok [] => .ok none
  | .ok (arrEntry :: _) =>
    match csvRead ':' arrEntry with
    | .error e => .error e
    | .ok rows2 =>
      match rows2.foldlM fieldStep ([] : Dict) with
      | .error e => .error e
      | .ok d => .ok (some d)

/-! ## Backward walk and path reconstruction
(class `textTree`, lines 95-143, and its caller, lines 256-269)

Offsets are `Int` because the Python code can drive `_currPos` below zero
(`rfind` returns `-1` and the code subtracts 1).  `pyAdj` is Python's
index adjustment for slice / `rfind` bounds: negative indices count from the
end, then clamp to `[0, len]`. -/

/-- Python bound adjustment for slices and `rfind`. -/
def pyAdj (len : Nat) (i : Int) : Nat :=
  (max 0 (min (if i < 0 then i + len else i) len)).toNat

/-- Python `text.rfind(c, 0, hi)`: highest index below the adjusted bound
holding `c`, or `-1`. -/
def pyRfind (s : List Char) (c : Char) (hi : Int) : Int :=
  match ((List.range (pyAdj s.length hi)).filter (fun i => s.getD i ' ' = c)).getLast? with
  | some i => (i : Int)
  | none => -1

/-- Python `text[a:b]` as a string. -/
def pySliceStr (s : List Char) (a b : Int) : String :=
  String.mk ((s.take (pyAdj s.length b)).drop (pyAdj s.length a))

/-- `textTree.nextUpTreeReverse` (lines 113-143) with `openLevel="["`,
`closeLevel="]"`, `ignoreBetween='\x22'`: walk backward from `currPos`,
skipping quoted spans, and stop on the opening bracket that takes the level
negative (or at position `≤ 0`).  `currPos` strictly decreases, so any fuel
of at least `currPos + 1` is sufficient. -/
def nextUp (s : List Char) : Nat → Int → Int → Int
  | 0, currPos, _ => currPos
  | fuel + 1, currPos, lvl =>
    if currPos > 0 then
      if lvl < 0 then currPos
      else
        let p := currPos - 1
        let c := s.getD p.toNat ' '
        if c = '\"' then nextUp s fuel (pyRfind s '\"' p - 1) lvl
        else if c = '[' then nextUp s fuel p (lvl - 1)
        else if c = ']' then nextUp s fuel p (lvl + 1)
        else nextUp s fuel p lvl
    else currPos

/-- `textTree.__init__` clamping of `currPos` (lines 108-111). -/
def textTreeInit (s : List Char) (currPos : Int) : Int :=
  if currPos = -1 ∨ currPos ≥ s.length then (s.length : Int) - 1 else currPos

/-- The `while tt._currPos > 0` loop of lines 260-269.  Each iteration finds
the enclosing opening bracket, extracts the quoted name to its left
(`jsonBlob.rfind('\x22', 0, pos-3)+1` to `pos-2`), and prepends
`name + "/"` to the accumulated path; the discovered names are also
collected (cons = prepend, so the final list is root-first like the
string). -/
def pathLoop (s : List Char) : Nat → Int → String → List String → String × List String
  | 0, _, acc, names => (acc, names)
  | fuel + 1, currPos, acc, names =>
    if currPos > 0 then
      let c' := nextUp s (s.length + 2) currPos 0
      if c' = 0 then (acc, names)
      else
        let startNodeName := pyRfind s '\"' (c' - 3) + 1
        let nodeName := pySliceStr s startNodeName (c' - 2)
        pathLoop s fuel c' (nodeName ++ "/" ++ acc) (nodeName :: names)
    else (acc, names)

/-- Path reconstruction for the record at `start` (lines 256-269): the
`treePath` string exactly as the source builds it, plus the root-first name
list. -/
def reconstructPath (s : List Char) (start : Nat) : String × List String :=
  pathLoop s (s.length + 1) (textTreeInit s start) "" []

/-! ## The per-record pipeline and `findJsonEntries` (lines 174-277) -/

/-- Processing of one discovered record (lines 226-277): compute `end` by
forward depth scan, strip the slice, tokenize it, reconstruct the path, then
attach `Path` and `lastUpdated`.  `ts? = none` models the unbound
`strLastUpdated` (`UnboundLocalError` on line 273); a `None` return from
`parseJsonEntry` would make line 272 raise `TypeError`. -/
def processEntry (s : List Char) (ts? : Option Int) (start bound : Nat) :
    Except PyErr Dict :=
  match parseJsonEntry
      (String.mk (pyStrip ((s.drop start).take (scanEnd s start bound - start)) STRIP2)) with
  | .error er => .error er
  | .ok none => .error .typeError
  | .ok (some d) =>
    match ts? with
    | none => .error .unboundLocal
    | some t =>
      .ok (upsert (upsert d "Path" (.vStr (reconstructPath s start).1))
        "lastUpdated" (.vInt t))

/-- Search bound for the current record: the next marker offset, or the blob
length for the last record (lines 228-231). -/
def nextBound (s : List Char) : List Nat → Nat
  | [] => s.length
  | b :: _ => b

/-- The `for i in range(len(entryOffsets))` loop (lines 219-277): each
record's bound is the next offset or the blob length; rows are emitted to
the csv writer as they are produced, so an exception keeps the rows already
written and aborts the rest. -/
def entriesLoop (s : List Char) (ts? : Option Int) :
    List Nat → List Dict → List Dict × Option PyErr
  | [], acc => (acc.reverse, none)
  | start :: rest, acc =>
    match processEntry s ts? start (nextBound s rest) with
    | .error e => (acc.reverse, some e)
    | .ok d => entriesLoop s ts? rest (d :: acc)

/-- `findJsonEntries` (lines 174-277): the emitted rows and the uncaught
exception, if any.  (`DEBUGLEVEL = 1`, so the progress-bar branches are
dead code.) -/
def findJsonEntries (s : List Char) : List Dict × Option PyErr :=
  match scanLastUpdate s with
  | .error e => ([], some e)
  | .ok ts? => entriesLoop s ts? (entryOffsets s) []

/-! ## Concrete documents and record bodies used in the claim analyses -/

/-- Body with a tracked closing brace inside the quoted url value. -/
def bodyBraceInQuote : List Char := ("\x7b\"url\":\"a\x7db\",\"ID\":1\x7d").data

/-- The same body with the quoted brace replaced by a plain letter. -/
def bodyPlainInQuote : List Char := ("\x7b\"url\":\"axb\",\"ID\":1\x7d").data

/-- The spec example body with untracked brackets inside the quoted value. -/
def bodyBracketUrl : List Char := ("\x7b\"url\":\"a[b]c\",\"ID\":1\x7d").data

/-- The spec example body with a short quoted value. -/
def bodyShortUrl : List Char := ("\x7b\"url\":\"x\",\"ID\":1\x7d").data

/-- Like `bodyBracketUrl` but with the brackets masked by plain letters:
the tracked-brace profile is unchanged. -/
def bodyMaskedUrl : List Char := ("\x7b\"url\":\"aXbYc\",\"ID\":1\x7d").data

/-- A record whose matching closing brace is followed by more text before
the search bound. -/
def blobTrailing : List Char := ("\x7b\"url\":1\x7d ").data

/-- Blob with a timestamp, one well-formed record, then a record cut off at
end of blob with no closing brace. -/
def blobTruncated : List Char :=
  ("\x7b\"lastUpdate\":5\x7d\x7b\"url\":\"a\",\"ID\":1\x7d\x7b\"url\":\"b\"").data

/-- The record body of the tokenizer example in the spec. -/
def bodyTitle : String := "\"url\":\"http://example.com\",\"title\":\"A, B\",\"ID\":42"

/-- Body whose second token has no colon separator. -/
def bodyNoColon : String := "\"url\":\"a\",xyz"

/-- Body whose second token has an empty key. -/
def bodyEmptyKey : String := "\"url\":\"a\",:5"

/-- The well-formed remainder of the two malformed bodies above. -/
def bodyUrlOnly : String := "\"url\":\"a\""

/-- The nested document of the path-reconstruction example. -/
def docNested : List Char :=
  ("\x7b\"windows\":[\x7b\"tabs\":[\x7b\"entries\":[\x7b\"url\":\"...\",\"ID\":1\x7d]\x7d]\x7d]\x7d").data

/-- A record-bearing blob with no timestamp marker at all. -/
def blobNoTs : List Char := ("\x7b\"url\":\"a\",\"ID\":1\x7d").data

/-- A blob with no record marker whose only timestamp match has an empty
digit run. -/
def blobEmptyDigits : List Char := ("\"lastUpdate\":\x7d").data

/-- Blob with two timestamp matches and one record. -/
def blobTwoTs : List Char :=
  ("\x7b\"lastUpdate\":5\x7d\x7b\"lastUpdate\":7\x7d\x7b\"url\":\"a\",\"ID\":1\x7d").data

/-- Blob with a timestamp and a record nested in named containers. -/
def blobNestedTs : List Char :=
  ("\x7b\"lastUpdate\":5\x7d\x7b\"windows\":[\x7b\"tabs\":[\x7b\"entries\":[\x7b\"url\":\"x\",\"ID\":1\x7d]\x7d]\x7d]\x7d").data

/-! ## Properties of the forward depth scan -/

theorem sumDelta_succ_left (s : List Char) (a n : Nat) :
    sumDelta s a (n + 1) = delta (s.getD a ' ') + sumDelta s (a + 1) n := by
  induction n with
  | zero => simp [sumDelta]
  | succ n ih =>
    show sumDelta s a (n + 1) + delta (s.getD (a + (n + 1)) ' ')
        = delta (s.getD a ' ') + (sumDelta s (a + 1) n + delta (s.getD (a + 1 + n) ' '))
    rw [ih]
    have e : a + 1 + n = a + (n + 1) := by omega
    rw [e]
    ring

/-- Stepping lemma: while the running level stays nonnegative, the loop
advances `n` positions and accumulates `sumDelta`. -/
theorem scanLoop_step (s : List Char) (bound : Nat) :
    ∀ (n fuel pos : Nat) (lvl : Int),
      (∀ m, m < n → 0 ≤ lvl + sumDelta s pos m) →
      scanLoop s bound (n + fuel) pos lvl
        = scanLoop s bound fuel (pos + n) (lvl + sumDelta s pos n) := by
  intro n
  induction n with
  | zero => intro fuel pos lvl _; simp [sumDelta]
  | succ n ih =>
    intro fuel pos lvl h
    have h0 : 0 ≤ lvl := by
      have := h 0 (by omega)
      simpa [sumDelta] using this
    have hrw : n + 1 + fuel = (n + fuel) + 1 := by omega
    rw [hrw]
    have hnot : ¬ lvl < 0 := by omega
    simp only [scanLoop, if_neg hnot]
    rw [ih fuel (pos + 1) (lvl + delta (s.getD pos ' ')) ?later]
    · have harith : pos + 1 + n = pos + (n + 1) := by omega
      rw [harith, sumDelta_succ_left]
      ring_nf
    case later =>
      intro m hm
      have := h (m + 1) (by omega)
      rw [sumDelta_succ_left] at this
      linarith

/-- If the level never goes negative, the loop exhausts its range and
returns `bound - 1` (silent truncation). -/
theorem scanLoop_exhaust (s : List Char) (bound : Nat) :
    ∀ (fuel pos : Nat) (lvl : Int),
      (∀ m, m ≤ fuel → 0 ≤ lvl + sumDelta s pos m) →
      scanLoop s bound fuel pos lvl = bound - 1 := by
  intro fuel
  induction fuel with
  | zero => intro pos lvl _; rfl
  | succ fuel ih =>
    intro pos lvl h
    have h0 : 0 ≤ lvl := by
      have := h 0 (by omega)
      simpa [sumDelta] using this
    have hnot : ¬ lvl < 0 := by omega
    simp only [scanLoop, if_neg hnot]
    apply ih
    intro m hm
    have := h (m + 1) (by omega)
    rw [sumDelta_succ_left] at this
    linarith

/-- Where the forward scan lands when the opening brace at `start` has its
matching closing brace at offset `p` inside the search bound: one past the
brace, except when the brace sits at the last scanned offset `bound - 1`. -/
theorem scanEnd_matching (s : List Char) (start bound p : Nat)
    (h1 : start + 1 ≤ p) (h2 : p < bound)
    (hc : s.getD p ' ' = '\x7d')
    (hnn : ∀ m, m ≤ p - (start + 1) → 0 ≤ sumDelta s (start + 1) m)
    (hz : sumDelta s (start + 1) (p - (start + 1)) = 0) :
    scanEnd s start bound = if p + 1 < bound then p + 1 else p := by
  set k := p - (start + 1) with hk
  have hp : start + 1 + k = p := by omega
  have hfuel : bound - (start + 1) = (k + 1) + (bound - (p + 1)) := by omega
  have hsum : sumDelta s (start + 1) (k + 1) = -1 := by
    show sumDelta s (start + 1) k + delta (s.getD (start + 1 + k) ' ') = -1
    rw [hp, hc]
    rw [hk] at hz
    simp [hz, delta]
  unfold scanEnd
  rw [hfuel, scanLoop_step s bound (k + 1) (bound - (p + 1)) (start + 1) 0 ?pos]
  · have hp2 : start + 1 + (k + 1) = p + 1 := by omega
    rw [hsum, hp2]
    by_cases hif : p + 1 < bound
    · have hpos : bound - (p + 1) = (bound - (p + 1) - 1) + 1 := by omega
      rw [hpos, if_pos hif]
      have hneg : (0 : Int) + -1 < 0 := by omega
      simp [scanLoop, hneg]
    · have hz2 : bound - (p + 1) = 0 := by omega
      rw [hz2, if_neg hif]
      show bound - 1 = p
      omega
  case pos =>
    intro m hm
    have := hnn m (by omega)
    omega

/-- The scan result depends only on the `delta` of the characters inside
the scanned range: quoting plays no role in the forward scan. -/
theorem scanLoop_congr (s t : List Char) (bound : Nat) :
    ∀ (fuel pos : Nat) (lvl : Int),
      (∀ j, pos ≤ j → j < pos + fuel → delta (s.getD j ' ') = delta (t.getD j ' ')) →
      scanLoop s bound fuel pos lvl = scanLoop t bound fuel pos lvl := by
  intro fuel
  induction fuel with
  | zero => intro pos lvl _; rfl
  | succ fuel ih =>
    intro pos lvl h
    by_cases hneg : lvl < 0
    · simp [scanLoop, hneg]
    · have hd : delta (s.getD pos ' ') = delta (t.getD pos ' ') :=
        h pos (by omega) (by omega)
      simp only [scanLoop, if_neg hneg, hd]
      exact ih (pos + 1) (lvl + delta (t.getD pos ' ')) (fun j h1 h2 => h j (by omega) (by omega))

/-! ## Dictionary lemmas -/

theorem dlookup_upsert (d : Dict) (k : String) (v : Val) :
    dlookup k (upsert d k v) = some v := by
  induction d with
  | nil => simp [upsert, dlookup]
  | cons kv rest ih =>
    obtain ⟨k', v'⟩ := kv
    by_cases h : k' = k
    · simp [upsert, h, dlookup]
    · simp [upsert, h, dlookup, ih]

theorem dlookup_upsert_ne (d : Dict) (k1 k2 : String) (v : Val) (hne : k1 ≠ k2) :
    dlookup k1 (upsert d k2 v) = dlookup k1 d := by
  have h2 : ¬ (k2 = k1) := fun h => hne h.symm
  induction d with
  | nil => simp [upsert, dlookup, h2]
  | cons kv rest ih =>
    obtain ⟨k', v'⟩ := kv
    by_cases h : k' = k2
    · subst h
      simp [upsert, dlookup, h2]
    · simp [upsert, h, dlookup, ih]

theorem mem_upsert (d : Dict) (k : String) (v : Val) (kv : String × Val)
    (h : kv ∈ upsert d k v) : kv = (k, v) ∨ kv ∈ d := by
  induction d with
  | nil => simp [upsert] at h; simp [h]
  | cons kv' rest ih =>
    obtain ⟨k', v'⟩ := kv'
    by_cases hk : k' = k
    · rw [upsert, if_pos hk] at h
      rcases List.mem_cons.mp h with h1 | h1
      · exact Or.inl h1
      · exact Or.inr (List.mem_cons_of_mem _ h1)
    · rw [upsert, if_neg hk] at h
      rcases List.mem_cons.mp h with h1 | h1
      · exact Or.inr (h1 ▸ List.mem_cons_self _ _)
      · rcases ih h1 with h2 | h2
        · exact Or.inl h2
        · exact Or.inr (List.mem_cons_of_mem _ h2)

/-! ## Timestamp lemmas -/

/-- Unfolding lemma for one step of the timestamp loop. -/
theorem tsLoop_cons (s : List Char) (j : Nat) (rest : List Nat) (acc : Option Int) :
    tsLoop s (j :: rest) acc
      = match tsValueAt s j with
        | .error e => .error e
        | .ok v => tsLoop s rest (some v) := rfl

/-- If the timestamp loop terminates normally, the accumulator ends at the
value of the last match: the last occurrence wins. -/
theorem tsLoop_last (s : List Char) :
    ∀ (l : List Nat) (acc : Option Int) (i : Nat) (v : Int) (w : Option Int),
      l.getLast? = some i → tsValueAt s i = .ok v →
      tsLoop s l acc = .ok w → w = some v := by
  intro l
  induction l with
  | nil => intro acc i v w h; simp at h
  | cons j rest ih =>
    intro acc i v w hlast hv hrun
    cases rest with
    | nil =>
      have hij : j = i := by simpa using hlast
      subst hij
      rw [tsLoop_cons, hv] at hrun
      simp only [tsLoop] at hrun
      injection hrun with h2
      exact h2.symm
    | cons j2 rest2 =>
      have hlast2 : (j2 :: rest2).getLast? = some i := by
        rwa [List.getLast?_cons_cons] at hlast
      rw [tsLoop_cons] at hrun
      cases hj : tsValueAt s j with
      | error e =>
        rw [hj] at hrun
        simp only [] at hrun
        cases hrun
      | ok v' =>
        rw [hj] at hrun
        simp only [] at hrun
        exact ih (some v') i v w hlast2 hv hrun

/-! ## Tokenizer lemmas -/

/-- Unfolding lemma for `fieldStep` on a row with at least two fields. -/
theorem fieldStep_some (d : Dict) (row : List String) (f0 f1 : String)
    (h0 : row.get? 0 = some f0) (h1 : row.get? 1 = some f1) :
    fieldStep d row
      = if String.mk (pyStrip f0.data STRIP1) ∈ FIELDS then
          .ok (upsert d (String.mk (pyStrip f0.data STRIP1))
            (Val.vStr (String.mk (pyStrip f1.data STRIP1))))
        else .ok d := by
  unfold fieldStep
  rw [h0, h1]

/-- `fieldStep` only ever inserts recognized keys. -/
theorem fieldStep_keys (d : Dict) (row : List String) (d' : Dict)
    (h : fieldStep d row = .ok d')
    (hd : ∀ kv ∈ d, kv.1 ∈ FIELDS) :
    ∀ kv ∈ d', kv.1 ∈ FIELDS := by
  cases h0 : row.get? 0 with
  | none =>
    unfold fieldStep at h
    rw [h0] at h
    simp only [] at h
    cases h
  | some f0 =>
    cases h1 : row.get? 1 with
    | none =>
      unfold fieldStep at h
      rw [h0, h1] at h
      simp only [] at h
      cases h
    | some f1 =>
      rw [fieldStep_some d row f0 f1 h0 h1] at h
      by_cases hin : String.mk (pyStrip f0.data STRIP1) ∈ FIELDS
      · rw [if_pos hin] at h
        cases h
        intro kv hkv
        rcases mem_upsert _ _ _ _ hkv with h2 | h2
        · rw [h2]; exact hin
        · exact hd kv h2
      · rw [if_neg hin] at h
        cases h
        exact hd

/-- Folding `fieldStep` preserves the recognized-keys invariant. -/
theorem fieldFold_keys :
    ∀ (rows : List (List String)) (d0 d : Dict),
      (∀ kv ∈ d0, kv.1 ∈ FIELDS) →
      rows.foldlM fieldStep d0 = .ok d →
      ∀ kv ∈ d, kv.1 ∈ FIELDS := by
  intro rows
  induction rows with
  | nil =>
    intro d0 d hd0 h
    cases h
    exact hd0
  | cons row rest ih =>
    intro d0 d hd0 h
    rw [List.foldlM_cons] at h
    cases hstep : fieldStep d0 row with
    | error e =>
      rw [hstep] at h
      cases h
    | ok d1 =>
      rw [hstep] at h
      exact ih d1 d (fieldStep_keys d0 row d1 hstep hd0) h

/-- Every key of a dictionary produced by `parseJsonEntry` is recognized. -/
theorem parseJsonEntry_keys (body : String) (d : Dict) (kv : String × Val)
    (h : parseJsonEntry body = .ok (some d)) (hkv : kv ∈ d) : kv.1 ∈ FIELDS := by
  unfold parseJsonEntry at h
  cases hr1 : csvRead ',' [body] with
  | error e => rw [hr1] at h; cases h
  | ok rows1 =>
    rw [hr1] at h
    cases rows1 with
    | nil => cases h
    | cons arrEntry rows1' =>
      simp only [] at h
      cases hr2 : csvRead ':' arrEntry with
      | error e => rw [hr2] at h; cases h
      | ok rows2 =>
        rw [hr2] at h
        simp only [] at h
        cases hf : rows2.foldlM fieldStep ([] : Dict) with
        | error e => rw [hf] at h; cases h
        | ok d' =>
          rw [hf] at h
          simp only [] at h
          cases h
          exact fieldFold_keys rows2 [] d (by simp) hf kv hkv

/-! ## Pipeline lemmas -/

/-- A successful `processEntry` with a bound timestamp always produces the
dictionary with `Path` and then `lastUpdated` attached. -/
theorem processEntry_ok_shape (s : List Char) (t : Int) (start bound : Nat) (d : Dict)
    (h : processEntry s (some t) start bound = .ok d) :
    ∃ d0, d = upsert (upsert d0 "Path" (.vStr (reconstructPath s start).1))
        "lastUpdated" (.vInt t) := by
  unfold processEntry at h
  cases hp : parseJsonEntry
      (String.mk (pyStrip ((s.drop start).take (scanEnd s start bound - start)) STRIP2)) with
  | error e => rw [hp] at h; cases h
  | ok od =>
    rw [hp] at h
    cases od with
    | none => cases h
    | some d0 =>
      cases h
      exact ⟨d0, rfl⟩

/-- With the timestamp variable unbound, `processEntry` never succeeds. -/
theorem processEntry_none (s : List Char) (start bound : Nat) (d : Dict)
    (h : processEntry s none start bound = .ok d) : False := by
  unfold processEntry at h
  cases hp : parseJsonEntry
      (String.mk (pyStrip ((s.drop start).take (scanEnd s start bound - start)) STRIP2)) with
  | error e => rw [hp] at h; cases h
  | ok od =>
    rw [hp] at h
    cases od with
    | none => cases h
    | some d0 => cases h

/-- Any property guaranteed by successful `processEntry` calls holds for
every emitted row. -/
theorem entriesLoop_preserve (s : List Char) (ts? : Option Int)
    (P : Dict → Prop)
    (hstep : ∀ start bound d, processEntry s ts? start bound = .ok d → P d) :
    ∀ (offs : List Nat) (acc : List Dict),
      (∀ d ∈ acc, P d) →
      ∀ d ∈ (entriesLoop s ts? offs acc).1, P d := by
  intro offs
  induction offs with
  | nil =>
    intro acc hacc d hd
    rw [entriesLoop] at hd
    exact hacc d (List.mem_reverse.mp hd)
  | cons start rest ih =>
    intro acc hacc d hd
    rw [entriesLoop] at hd
    cases hpe : processEntry s ts? start (nextBound s rest) with
    | error e =>
      rw [hpe] at hd
      exact hacc d (List.mem_reverse.mp hd)
    | ok d' =>
      rw [hpe] at hd
      refine ih (d' :: acc) ?he d hd
      intro x hx
      rcases List.mem_cons.mp hx with h1 | h1
      · exact h1 ▸ hstep start (nextBound s rest) d' hpe
      · exact hacc x h1

/-! ## Path shape lemmas -/

/-- The accumulated tree path is empty or ends in the separator. -/
def PathInv (p : String) : Prop := p = "" ∨ p.data.getLast? = some '/'

theorem pathInv_step (n acc : String) (h : PathInv acc) : PathInv (n ++ "/" ++ acc) := by
  right
  have hdata : (n ++ "/" ++ acc).data = n.data ++ ('/' :: acc.data) := by
    simp [String.data_append]
  rw [hdata]
  rw [List.getLast?_append_of_ne_nil _ (by simp)]
  rcases h with h | h
  · subst h
    rfl
  · cases hacc : acc.data with
    | nil => rfl
    | cons a l =>
      rw [hacc] at h
      rw [List.getLast?_cons_cons]
      exact h

/-- The path loop preserves the separator invariant. -/
theorem pathLoop_inv (s : List Char) :
    ∀ (fuel : Nat) (currPos : Int) (acc : String) (names : List String),
      PathInv acc → PathInv (pathLoop s fuel currPos acc names).1 := by
  intro fuel
  induction fuel with
  | zero => intro currPos acc names h; exact h
  | succ fuel ih =>
    intro currPos acc names h
    rw [pathLoop]
    by_cases h1 : currPos > 0
    · rw [if_pos h1]
      by_cases h2 : nextUp s (s.length + 2) currPos 0 = 0
      · simp only [h2, if_pos rfl]
        exact h
      · simp only [if_neg h2]
        exact ih _ _ _ (pathInv_step _ _ h)
    · rw [if_neg h1]
      exact h

/-! ## Claim analyses -/

/-- Claim C1 is false on the code: in `blobTruncated` the final record
(marker at offset 34, search bound 44 = blob length) never resolves its
depth within the bound (the level stays nonnegative over the whole scanned
range), yet `findJsonEntries` raises no error and still emits a row for that
record with the truncated url value — silent truncation instead of an
`UnterminatedRecord` failure. -/
theorem claim1_counterexample :
    entryOffsets blobTruncated = [16, 34]
    ∧ sumDelta blobTruncated 35 9 = 0
    ∧ scanEnd blobTruncated 34 44 = 43
    ∧ (findJsonEntries blobTruncated).2 = none
    ∧ (findJsonEntries blobTruncated).1.length = 2
    ∧ dlookup "url" ((findJsonEntries blobTruncated).1.getD 1 [])
        = some (.vStr "b") :=
  ⟨by decide, by decide, by decide, by decide, by decide, by decide⟩

/-- Claim C1 amended: when the forward scan reaches its bound with the depth
counter never resolving, the record is silently truncated at offset
`bound - 1` (no error of any kind is raised), the truncated record still
yields an output row, and records located before it still yield their
rows. -/
theorem claim1_amended :
    (∀ (s : List Char) (start bound : Nat),
        (∀ m, m ≤ bound - (start + 1) → 0 ≤ sumDelta s (start + 1) m) →
        scanEnd s start bound = bound - 1)
    ∧ (findJsonEntries blobTruncated).1.length = 2
    ∧ (findJsonEntries blobTruncated).2 = none := by
  refine ⟨?gen, by decide, by decide⟩
  intro s start bound h
  unfold scanEnd
  apply scanLoop_exhaust
  intro m hm
  simpa using h m hm

/-- Witness for the amended C1 at the truncated record of `blobTruncated`. -/
theorem claim1_witness : scanEnd blobTruncated 34 44 = 43 :=
  claim1_amended.1 blobTruncated 34 44 (by decide)

/-- Claim C2 is false on the code: the two bodies agree everywhere except at
offset 9, which lies inside the quoted url value (`a\x7db` vs `axb`), yet
the computed end offsets differ (10 vs 19): a tracked closing brace inside a
quoted value is counted, because the forward scan does not skip quoted
spans. -/
theorem claim2_counterexample :
    bodyBraceInQuote.length = bodyPlainInQuote.length
    ∧ bodyBraceInQuote.take 9 = bodyPlainInQuote.take 9
    ∧ bodyBraceInQuote.drop 10 = bodyPlainInQuote.drop 10
    ∧ scanEnd bodyBraceInQuote 0 20 = 10
    ∧ scanEnd bodyPlainInQuote 0 20 = 19 :=
  ⟨by decide, by decide, by decide, by decide, by decide⟩

/-- Claim C2 amended: the forward scan does not skip quoted spans; what is
invisible to it is exactly every character whose `delta` is zero, i.e.
everything but the tracked pair, quoted or not.  Hence the computed end
offset depends only on the positions of tracked braces in the scanned range,
and the spec's example still holds (`[`/`]` are not tracked): the bracketed
body ends at 21 and the short body at 17 — equal up to the length
difference 4. -/
theorem claim2_amended :
    (∀ (s t : List Char) (start bound : Nat),
        (∀ j, j < bound → start + 1 ≤ j →
          delta (s.getD j ' ') = delta (t.getD j ' ')) →
        scanEnd s start bound = scanEnd t start bound)
    ∧ scanEnd bodyBracketUrl 0 22 = 21
    ∧ scanEnd bodyShortUrl 0 18 = 17 := by
  refine ⟨?gen, by decide, by decide⟩
  intro s t start bound h
  unfold scanEnd
  apply scanLoop_congr
  intro j h1 h2
  exact h j (by omega) h1

/-- Witness for the amended C2: masking the quoted brackets by plain letters
leaves the end offset unchanged. -/
theorem claim2_witness :
    scanEnd bodyBracketUrl 0 22 = scanEnd bodyMaskedUrl 0 22 :=
  claim2_amended.1 bodyBracketUrl bodyMaskedUrl 0 22 (by decide)

/-- Claim C3 is false on the code: in `blobTrailing` the record's opening
brace at offset 0 has its matching closing brace at offset 8 (the depth
profile after the marker stays nonnegative and is zero just before it), yet
the computed end offset is 9 — one past the matching brace, so the half-open
range includes the closing bracket instead of ending at it. -/
theorem claim3_counterexample :
    entryOffsets blobTrailing = [0]
    ∧ blobTrailing.getD 8 ' ' = '\x7d'
    ∧ sumDelta blobTrailing 1 7 = 0
    ∧ sumDelta blobTrailing 1 8 = -1
    ∧ scanEnd blobTrailing 0 10 = 9 :=
  ⟨by decide, by decide, by decide, by decide, by decide⟩

/-- Claim C3 amended: for a well-formed record whose matching closing brace
sits at offset `p` inside the bound, the scan returns `p + 1` (one past the
matching brace), except when the brace occupies the last scanned offset
`bound - 1`, where it returns `p` itself. -/
theorem claim3_amended (s : List Char) (start bound p : Nat)
    (h1 : start + 1 ≤ p) (h2 : p < bound)
    (hc : s.getD p ' ' = '\x7d')
    (hnn : ∀ m, m ≤ p - (start + 1) → 0 ≤ sumDelta s (start + 1) m)
    (hz : sumDelta s (start + 1) (p - (start + 1)) = 0) :
    scanEnd s start bound = if p + 1 < bound then p + 1 else p :=
  scanEnd_matching s start bound p h1 h2 hc hnn hz

/-- Witness for the amended C3 at the record of `blobTrailing`. -/
theorem claim3_witness :
    scanEnd blobTrailing 0 10 = if 8 + 1 < 10 then 8 + 1 else 8 :=
  claim3_amended blobTrailing 0 10 8 (by decide) (by decide) (by decide)
    (by decide) (by decide)

/-- Claim C4 is false on the code: a token with no colon separator
(`xyz`) makes `field[1]` raise an uncaught `IndexError`, aborting the whole
extraction instead of being skipped. -/
theorem claim4_counterexample :
    parseJsonEntry bodyNoColon = .error .indexError := by decide

/-- Claim C4 amended: a token with an empty key (`:5`) is skipped locally —
the result is the field map of the remaining well-formed tokens — but a
token with no colon separator aborts the extraction with an uncaught
`IndexError`. -/
theorem claim4_amended :
    parseJsonEntry bodyEmptyKey = .ok (some [("url", Val.vStr "a")])
    ∧ parseJsonEntry bodyEmptyKey = parseJsonEntry bodyUrlOnly :=
  ⟨by decide, by decide⟩

/-- Claim C5 names a real code bug: `blobNoTs` contains a record but no
timestamp-marker match, so `strLastUpdated` is never assigned; the claim
(and the spec) promise one row with an empty timestamp, but line 273 of the
source raises `UnboundLocalError` and the run emits zero rows. -/
theorem claim5_theorem :
    tsOffsets blobNoTs = []
    ∧ entryOffsets blobNoTs = [0]
    ∧ findJsonEntries blobNoTs = ([], some .unboundLocal) :=
  ⟨by decide, by decide, by decide⟩

/-- Claim C6: on the nested example document the path reconstructed for the
innermost record (the only marker hit, at offset 33) is the root-first name
sequence `windows, tabs, entries`, rendered as `windows/tabs/entries/`. -/
theorem claim6_theorem :
    entryOffsets docNested = [33]
    ∧ (reconstructPath docNested 33).2 = ["windows", "tabs", "entries"]
    ∧ (reconstructPath docNested 33).1 = "windows/tabs/entries/" :=
  ⟨by decide, by decide, by decide⟩

/-- Claim C7: when the timestamp pattern occurs at least twice, the value
parsed at the last occurrence is the one attached, identically, to every
emitted output row. -/
theorem claim7_theorem (s : List Char) (i : Nat) (v : Int)
    (_hlen : 2 ≤ (tsOffsets s).length)
    (hlast : (tsOffsets s).getLast? = some i)
    (hv : tsValueAt s i = .ok v) :
    ∀ d ∈ (findJsonEntries s).1, dlookup "lastUpdated" d = some (.vInt v) := by
  intro d hd
  unfold findJsonEntries at hd
  cases hsc : scanLastUpdate s with
  | error e =>
    rw [hsc] at hd
    simp only [] at hd
    cases hd
  | ok ts? =>
    rw [hsc] at hd
    simp only [] at hd
    have hts : ts? = some v := tsLoop_last s (tsOffsets s) none i v ts? hlast hv hsc
    subst hts
    refine entriesLoop_preserve s (some v)
      (fun d => dlookup "lastUpdated" d = some (.vInt v)) ?hstep
      (entryOffsets s) [] (by intro x hx; cases hx) d hd
    intro start bound d' hok
    obtain ⟨d0, rfl⟩ := processEntry_ok_shape s v start bound d' hok
    exact dlookup_upsert _ _ _

/-- Witness for C7 on a blob with two timestamp matches (values 5 then 7)
and one record. -/
theorem claim7_witness :
    2 ≤ (tsOffsets blobTwoTs).length
    ∧ ∀ d ∈ (findJsonEntries blobTwoTs).1,
        dlookup "lastUpdated" d = some (.vInt 7) :=
  ⟨by decide, claim7_theorem blobTwoTs 17 7 (by decide) (by decide) (by decide)⟩

/-- Claim C9 is false on the code as universally stated: `blobEmptyDigits`
contains no record marker, yet extraction raises `ValueError` — the
timestamp pre-scan matches `lastUpdate` with an empty digit run and
`int('')` fails before the (empty) record loop is reached. -/
theorem claim9_counterexample :
    entryOffsets blobEmptyDigits = []
    ∧ findJsonEntries blobEmptyDigits = ([], some .valueError) :=
  ⟨by decide, by decide⟩

/-- Claim C9 amended: a blob with zero marker occurrences yields zero rows
and no error, provided the timestamp pre-scan itself does not raise (it
raises only on a degenerate `lastUpdate` match with an empty digit run). -/
theorem claim9_amended (s : List Char) (hoff : entryOffsets s = [])
    (hts : ∀ e, scanLastUpdate s ≠ .error e) :
    findJsonEntries s = ([], none) := by
  unfold findJsonEntries
  cases hsc : scanLastUpdate s with
  | error e => exact absurd hsc (hts e)
  | ok ts? =>
    simp only []
    rw [hoff]
    rfl

/-- Witness for the amended C9 on the empty blob. -/
theorem claim9_witness : findJsonEntries [] = ([], none) :=
  claim9_amended [] (by decide) (by
    intro e h
    have hok : scanLastUpdate ([] : List Char) = Except.ok none := rfl
    rw [hok] at h
    exact Except.noConfusion h)

/-- Claim C10: every emitted row's `Path` value is a string that is either
empty (root-level record) or ends with the separator `/`. -/
theorem claim10_theorem (s : List Char) (d : Dict) (v : Val)
    (hd : d ∈ (findJsonEntries s).1)
    (hv : dlookup "Path" d = some v) :
    ∃ p, v = .vStr p ∧ (p = "" ∨ p.data.getLast? = some '/') := by
  unfold findJsonEntries at hd
  cases hsc : scanLastUpdate s with
  | error e =>
    rw [hsc] at hd
    simp only [] at hd
    cases hd
  | ok ts? =>
    rw [hsc] at hd
    simp only [] at hd
    refine entriesLoop_preserve s ts?
      (fun d => ∀ v, dlookup "Path" d = some v →
        ∃ p, v = .vStr p ∧ (p = "" ∨ p.data.getLast? = some '/'))
      ?hstep (entryOffsets s) [] (by intro x hx; cases hx) d hd v hv
    intro start bound d' hok
    cases ts? with
    | none => exact (processEntry_none s start bound d' hok).elim
    | some t =>
      obtain ⟨d0, rfl⟩ := processEntry_ok_shape s t start bound d' hok
      intro v hv2
      rw [dlookup_upsert_ne _ "Path" "lastUpdated" _ (by decide)] at hv2
      rw [dlookup_upsert] at hv2
      injection hv2 with h3
      refine ⟨(reconstructPath s start).1, h3.symm, ?inv⟩
      exact pathLoop_inv s (s.length + 1) (textTreeInit s start) "" [] (Or.inl rfl)

/-- Witness for C10 on a nested record whose path is
`windows/tabs/entries/`. -/
theorem claim10_witness :
    ∃ p, Val.vStr "windows/tabs/entries/" = Val.vStr p
      ∧ (p = "" ∨ p.data.getLast? = some '/') :=
  claim10_theorem blobNestedTs
    [("url", Val.vStr "x"), ("ID", Val.vStr "1"),
     ("Path", Val.vStr "windows/tabs/entries/"), ("lastUpdated", Val.vInt 5)]
    (Val.vStr "windows/tabs/entries/") (by decide) (by decide)

/-- Claim C8 is false on the code: on the spec's example body the comma
inside the quoted title value does split the first csv pass (the parser is
no longer inside a quoted field there), and the second pass glues the two
pieces back with the comma dropped, yielding `A B` instead of `A, B`. -/
theorem claim8_counterexample :
    parseJsonEntry bodyTitle
      = .ok (some [("url", Val.vStr "http://example.com"),
                   ("title", Val.vStr "A B"), ("ID", Val.vStr "42")])
    ∧ Val.vStr "A B" ≠ Val.vStr "A, B" :=
  ⟨by decide, by decide⟩

/-- Claim C8 amended: the example body tokenizes to
`url=http://example.com`, `ID=42`, and `title=A B` (comma lost to the
quote-unaware double pass), and in general every key present in a map
produced by the tokenizer belongs to the recognized field set. -/
theorem claim8_amended :
    (∀ (body : String) (d : Dict) (kv : String × Val),
        parseJsonEntry body = .ok (some d) → kv ∈ d → kv.1 ∈ FIELDS)
    ∧ parseJsonEntry bodyTitle
      = .ok (some [("url", Val.vStr "http://example.com"),
                   ("title", Val.vStr "A B"), ("ID", Val.vStr "42")]) :=
  ⟨fun body d kv h hkv => parseJsonEntry_keys body d kv h hkv, by decide⟩

/-- Witness for the amended C8: the key of the map produced from the
url-only body is recognized. -/
theorem claim8_witness : ("url", Val.vStr "a").1 ∈ FIELDS :=
  claim8_amended.1 bodyUrlOnly [("url", Val.vStr "a")] ("url", Val.vStr "a")
    (by decide) (by decide)

end SessionStore
